import Mathlib

/-!
Verification development for the guardrails orchestration core of
`openai-guardrails-js`.

The definitions below are a shallow embedding of the TypeScript sources:

* `src/spec.ts`                         → `GuardrailSpec`, `GuardrailSpec.instantiate`
* `src/exceptions.ts`                   → `StageError`
* `src/streaming.ts`                    → `streamLoop`, `streamFinal`, `streamWithGuardrails`
* `src/resources/responses/responses.ts`→ `responsesCreate`
* `src/resources/chat/chat.ts`          → `chatCreate`, `textOnlyMessages`
* `src/checks/prompt_injection_detection.ts` → the `PID*` definitions

The repository snapshot does not contain `src/base-client.ts` or
`src/runtime.ts` (only their tests, importers and the specification
describe them); the helpers that live there — `runStageGuardrails`,
`applyPreflightModifications`, `extractLatestUserMessage`, the
`ConfiguredGuardrail` container — are modelled from the specification
text (sections 4.2, 4.4, 4.5), cross-checked against the behaviour
pinned down by `src/__tests__/unit/base-client.test.ts`.  Each such
definition carries a doc comment starting with `Modelled from the spec:`.

Conventions of the embedding: JavaScript exceptions become `Except`
values, cooperative-async control flow becomes explicit event traces
(`FlowEv`, `StreamEv`), JS objects become structures, and JS object maps
become association lists.  All definitions are executable.
-/

namespace Guardrails

/-- Entity map carried in `info.detected_entities`: entity type → matched
substrings (a JS object modelled as an association list in key order). -/
abbrev Entities := List (String × List String)

/-- Embedding of the `info` payload of a `GuardrailResult`
(`src/types.ts`).  Only the fields the orchestration core reads or
writes are modelled; absent JS fields are `none`. -/
structure GuardrailInfo where
  checked_text : String := ""
  detected_entities : Option Entities := none
  stage_name : Option String := none
  guardrail_name : Option String := none
  error_message : Option String := none
deriving DecidableEq, Repr

/-- Embedding of `GuardrailResult` (`src/types.ts`): outcome of one
guardrail check.  `executionFailed` is optional in TS and defaults to
absent/false. -/
structure GuardrailResult where
  tripwireTriggered : Bool
  executionFailed : Bool := false
  info : GuardrailInfo := {}
deriving DecidableEq, Repr

/-- Content part of a structured message: a text part or a non-text part
(image, audio, ...) carried opaquely. -/
inductive Part where
  | text (s : String)
  | other (data : String)
deriving DecidableEq, Repr

/-- Message content: a plain string or a list of parts. -/
inductive Content where
  | str (s : String)
  | parts (ps : List Part)
deriving DecidableEq, Repr

/-- Chat/responses message: role plus content. -/
structure Msg where
  role : String
  content : Content
deriving DecidableEq, Repr

instance : Inhabited Msg := ⟨⟨"", .str ""⟩⟩

/-- Input of a client call: plain text or a structured message list. -/
inductive InputValue where
  | str (s : String)
  | msgs (ms : List Msg)
deriving DecidableEq, Repr

/-! Character-level replace-all, embedding the JS
`split(substring).join(token)` / `replaceAll` replacement used for PII
masking: single-pass, left-to-right, non-overlapping. -/

/-- Decide whether `pat` is a prefix of `l`. -/
def matchesAt : List Char → List Char → Bool
  | [], _ => true
  | _ :: _, [] => false
  | p :: ps, c :: cs => p == c && matchesAt ps cs

/-- Fuel-indexed worker for `replaceAll`; the fuel is the length of the
remaining text, which bounds the number of emitted pieces. -/
def replaceAux (pat rep : List Char) : Nat → List Char → List Char
  | 0, l => l
  | _ + 1, [] => []
  | fuel + 1, c :: rest =>
    if pat ≠ [] ∧ matchesAt pat (c :: rest) then
      rep ++ replaceAux pat rep fuel (List.drop (pat.length - 1) rest)
    else
      c :: replaceAux pat rep fuel rest

/-- Replace every (non-overlapping, left-to-right) occurrence of `pat`
inside `s` by `rep`; an empty pattern leaves the string unchanged. -/
def replaceAll (s pat rep : String) : String :=
  ⟨replaceAux pat.data rep.data s.data.length s.data⟩

/-! Embedding of `src/spec.ts` and the `ConfiguredGuardrail` data model. -/

/-- Embedding of `GuardrailSpecMetadata` (`src/spec.ts`): an open JS
object, modelled as its known `engine` field plus extra key/value pairs. -/
structure GuardrailSpecMetadata where
  engine : Option String := none
  extra : List (String × String) := []
deriving DecidableEq, Repr

/-- Embedding of `GuardrailSpec` (`src/spec.ts`).  The zod
`configSchema`/`ctxRequirements` values are abstracted to their
validation functions; `checkFn` is the check function. -/
structure GuardrailSpec (Ctx Inp Cfg : Type) where
  name : String
  description : String
  mediaType : String
  configSchema : Cfg → Bool
  checkFn : Ctx → Inp → Cfg → GuardrailResult
  ctxRequirements : Ctx → Bool
  metadata : Option GuardrailSpecMetadata := none

/-- Modelled from the spec: the `ConfiguredGuardrail` container of the
missing `src/runtime.ts` — "ConfiguredGuardrail: {definition: Spec,
config: validated value}. Created by `Spec.instantiate(config)`;
immutable". -/
structure ConfiguredGuardrail (Ctx Inp Cfg : Type) where
  definition : GuardrailSpec Ctx Inp Cfg
  config : Cfg

/-- Embedding of `GuardrailSpec.instantiate` (`src/spec.ts`, lines
71-73): `return new ConfiguredGuardrail(this, config);` — no look at the
schema, no failure path. -/
def GuardrailSpec.instantiate {Ctx Inp Cfg : Type}
    (s : GuardrailSpec Ctx Inp Cfg) (config : Cfg) :
    ConfiguredGuardrail Ctx Inp Cfg :=
  ⟨s, config⟩

/-! Modelled stage execution engine (`runStageGuardrails` of the missing
`src/base-client.ts`, specification section 4.4). -/

/-- Stage-level guardrail as the engine sees it: a declared name plus
its run outcome on a checked text (`.ok` a result, `.error` a thrown
message).  Context routing is irrelevant to the claims and elided. -/
structure NamedGuardrail where
  name : String
  run : String → Except String GuardrailResult

/-- Embedding of the two exception kinds of `src/exceptions.ts` that
`runStageGuardrails` can raise: `GuardrailTripwireTriggered` (carrying
the triggering result) and an execution error. -/
inductive StageError where
  | tripwire (r : GuardrailResult)
  | execution (msg : String)
deriving DecidableEq, Repr

/-- Modelled from the spec: result annotation of the missing
`src/base-client.ts` — "Annotate every result's `info` with `stage_name`
and `guardrail_name`, regardless of outcome" (section 4.4 step 5). -/
def annotateResult (stage name : String) (r : GuardrailResult) : GuardrailResult :=
  { r with info := { r.info with stage_name := some stage, guardrail_name := some name } }

/-- Modelled from the spec: the synthesized result of the missing
`src/base-client.ts` for a throwing check — "synthesize a result with
`tripwireTriggered=false`, `executionFailed=true`, `originalError` set,
`info` carrying the error message" (section 4.4 step 4). -/
def synthFailure (msg : String) : GuardrailResult :=
  { tripwireTriggered := false
    executionFailed := true
    info := { checked_text := "", error_message := some msg } }

/-- Modelled from the spec: result collection of the missing
`src/base-client.ts` — fan out every guardrail, fan in all outcomes; a
throwing check propagates when `raiseErr` is true and otherwise becomes
a synthesized non-triggering result (section 4.4 steps 3-5). -/
def collectStageResults (stage text : String) (raiseErr : Bool) :
    List NamedGuardrail → Except String (List GuardrailResult)
  | [] => .ok []
  | g :: gs =>
    let rest := collectStageResults stage text raiseErr gs
    match g.run text with
    | .ok r => rest.map (annotateResult stage g.name r :: ·)
    | .error m =>
      if raiseErr then .error m
      else rest.map (annotateResult stage g.name (synthFailure m) :: ·)

/-- Annotated per-guardrail results in declared config order, when no
execution error propagates (`raiseErr = false` collection). -/
def stageResults (stage : String) (gs : List NamedGuardrail) (text : String) :
    List GuardrailResult :=
  gs.map fun g =>
    annotateResult stage g.name
      (match g.run text with
       | .ok r => r
       | .error m => synthFailure m)

/-- Modelled from the spec: `runStageGuardrails` of the missing
`src/base-client.ts` (section 4.4) — collect all results, then "Scan
results in declared order for the first `tripwireTriggered=true`.  If
found and `suppressTripwire` is false, throw a tripwire exception
carrying that result ... If `suppressTripwire` is true, return all
results without throwing." -/
def runStageGuardrails (stage : String) (gs : List NamedGuardrail) (text : String)
    (suppressTripwire : Bool) (raiseErr : Bool) :
    Except StageError (List GuardrailResult) :=
  match collectStageResults stage text raiseErr gs with
  | .error m => .error (.execution m)
  | .ok results =>
    match results.find? (·.tripwireTriggered) with
    | some r => if suppressTripwire then .ok results else .error (.tripwire r)
    | none => .ok results

/-! Modelled latest-user-message extraction (`extractLatestUserMessage`
of the missing `src/base-client.ts`). -/

/-- Modelled from the spec: the text of one message's content as used by
`extractLatestUserMessage` of the missing `src/base-client.ts` — a plain
string is trimmed, multi-part content joins its text parts with a single
space (behaviour pinned by `base-client.test.ts` lines 79-109). -/
def contentText : Content → String
  | .str s => s.trim
  | .parts ps =>
    (String.intercalate " " (ps.filterMap fun p =>
      match p with
      | .text s => some s
      | .other _ => none)).trim

/-- Index of the last user-role message, if any. -/
def lastUserIdx (ms : List Msg) : Option Nat :=
  ((List.range ms.length).filter fun i => (ms.getD i default).role == "user").getLast?

/-- Modelled from the spec: `extractLatestUserMessage` of the missing
`src/base-client.ts` — returns the text of the latest user-role message
together with its index, or `("", -1)` when there is none
(`base-client.test.ts` lines 78-118). -/
def extractLatestUserMessage (ms : List Msg) : String × Int :=
  match lastUserIdx ms with
  | some i => (contentText (ms.getD i default).content, (i : Int))
  | none => ("", -1)

/-! Modelled preflight modification engine (`applyPreflightModifications`
of the missing `src/base-client.ts`, specification section 4.5). -/

/-- True when some result carries an `info.detected_entities` map. -/
def hasDetectedEntities (results : List GuardrailResult) : Bool :=
  results.any fun r => r.info.detected_entities.isSome

/-- All detected-entity maps of the results, concatenated in result
order. -/
def collectDetectedEntities (results : List GuardrailResult) : Entities :=
  results.foldr
    (fun r acc =>
      match r.info.detected_entities with
      | some e => e ++ acc
      | none => acc)
    []

/-- Replace, for every entity type in order and every matched substring
in order, each occurrence by the `<ENTITY_TYPE>` redaction token. -/
def maskText (ents : Entities) (s : String) : String :=
  ents.foldl
    (fun acc p => p.2.foldl (fun acc sub => replaceAll acc sub ("<" ++ p.1 ++ ">")) acc)
    s

/-- Mask a single content part: text parts are rewritten, non-text parts
stay untouched. -/
def maskPart (ents : Entities) : Part → Part
  | .text s => .text (maskText ents s)
  | .other d => .other d

/-- Mask message content: a plain string wholly, multi-part content one
text part at a time. -/
def maskContent (ents : Entities) : Content → Content
  | .str s => .str (maskText ents s)
  | .parts ps => .parts (ps.map (maskPart ents))

/-- Modelled from the spec: `applyPreflightModifications` of the missing
`src/base-client.ts` (section 4.5) — "Scan results for any
`info.detected_entities` map ... If none, return `originalInput`
unchanged by identity.  Otherwise replace every matched occurrence with
a redaction token `<ENTITY_TYPE>` in the subject text, which is: the
whole string if input is plain text; otherwise only the *last* user-role
message, scanning each text part independently if content is multi-part,
leaving all other messages and non-text parts byte-for-byte unchanged." -/
def applyPreflightModifications (input : InputValue) (results : List GuardrailResult) :
    InputValue :=
  if hasDetectedEntities results then
    let ents := collectDetectedEntities results
    match input with
    | .str s => .str (maskText ents s)
    | .msgs ms =>
      match lastUserIdx ms with
      | none => .msgs ms
      | some i =>
        .msgs (ms.mapIdx fun j m =>
          if j = i then { m with content := maskContent ents m.content } else m)
  else input

/-! Embedding of `src/streaming.ts` (`StreamingMixin.streamWithGuardrails`).
A chunk is modelled by its extracted text (`extractResponseText` becomes
the identity; an empty string is the falsy case the code skips).  Every
observable step of the generator becomes an event: an output-stage
invocation, a yielded wrapped chunk, or the yielded terminal value. -/

/-- Observable events of one `streamWithGuardrails` run. -/
inductive StreamEv where
  | checkRun (text : String)
  | yieldChunk (chunk : String) (pre inp out : List GuardrailResult)
  | yieldFinal (accumulated : String) (pre inp out : List GuardrailResult)
deriving DecidableEq, Repr

/-- Text of a periodic/final output-stage invocation event, if any. -/
def checkText? : StreamEv → Option String
  | .checkRun t => some t
  | _ => none

/-- Payload of a yielded wrapped chunk, if any. -/
def yieldOf? : StreamEv → Option (String × List GuardrailResult × List GuardrailResult × List GuardrailResult)
  | .yieldChunk c pre inp out => some (c, pre, inp, out)
  | _ => none

/-- Embedding of the `for await` loop of `streamWithGuardrails`
(`src/streaming.ts` lines 31-72): per chunk, extract the text; when
non-empty, append it to the buffer, bump the counter and, every
`interval` chunks, run the output stage on the accumulated text — on a
tripwire, yield one wrapped value carrying the triggering result and
rethrow; then (in every non-throwing case) yield the chunk wrapped with
the fixed preflight/input results and no output results.  Returns the
events, the final buffer, the final counter and the rethrown error, if
any. -/
def streamLoop (gs : List NamedGuardrail) (pre inp : List GuardrailResult)
    (suppress : Bool) (interval : Nat) :
    List String → String → Nat → List StreamEv × String × Nat × Option StageError
  | [], acc, count => ([], acc, count, none)
  | c :: rest, acc, count =>
    if c = "" then
      let (evs, a, n, th) := streamLoop gs pre inp suppress interval rest acc count
      (.yieldChunk c pre inp [] :: evs, a, n, th)
    else
      let acc' := acc ++ c
      let count' := count + 1
      if count' % interval = 0 then
        match runStageGuardrails "output" gs acc' suppress false with
        | .error (.tripwire r) =>
          ([.checkRun acc', .yieldChunk c pre inp [r]], acc', count', some (.tripwire r))
        | .error (.execution m) =>
          ([.checkRun acc'], acc', count', some (.execution m))
        | .ok _ =>
          let (evs, a, n, th) := streamLoop gs pre inp suppress interval rest acc' count'
          (.checkRun acc' :: .yieldChunk c pre inp [] :: evs, a, n, th)
      else
        let (evs, a, n, th) := streamLoop gs pre inp suppress interval rest acc' count'
        (.yieldChunk c pre inp [] :: evs, a, n, th)

/-- Embedding of the final check of `streamWithGuardrails`
(`src/streaming.ts` lines 74-106): after normal stream end, when
tripwires are not suppressed and text was accumulated, run the output
stage once over the complete text and yield a terminal wrapped value —
carrying the stage results, or the triggering result when the stage
throws a tripwire, which is then rethrown. -/
def streamFinal (gs : List NamedGuardrail) (pre inp : List GuardrailResult)
    (suppress : Bool) (acc : String) : List StreamEv × Option StageError :=
  if suppress = false ∧ acc ≠ "" then
    match runStageGuardrails "output" gs acc suppress false with
    | .ok results => ([.checkRun acc, .yieldFinal acc pre inp results], none)
    | .error (.tripwire r) => ([.checkRun acc, .yieldFinal acc pre inp [r]], some (.tripwire r))
    | .error (.execution m) => ([.checkRun acc], some (.execution m))
  else ([], none)

/-- Embedding of `streamWithGuardrails` (`src/streaming.ts`): the chunk
loop followed, when the loop did not rethrow, by the final check. -/
def streamWithGuardrails (gs : List NamedGuardrail) (pre inp : List GuardrailResult)
    (suppress : Bool) (interval : Nat) (chunks : List String) :
    List StreamEv × Option StageError :=
  let (evs, acc, _, th) := streamLoop gs pre inp suppress interval chunks "" 0
  match th with
  | some e => (evs, some e)
  | none =>
    let (fevs, fth) := streamFinal gs pre inp suppress acc
    (evs ++ fevs, fth)

/-! Embedding of the two client call flows, as event traces.
`responsesCreate` follows `Responses.create`
(`src/resources/responses/responses.ts` lines 131-200) and `chatCreate`
follows `ChatCompletions.create` (`src/resources/chat/chat.ts` lines
54-129); the non-streaming tail is collapsed into one `outputHandled`
event.  The `await` of a stage call emits `stageStart`/`stageEnd` around
its settled outcome; `Promise.all([input checks, model call])` first
starts both operations, then awaits both. -/

/-- Observable events of one `create` call. -/
inductive FlowEv where
  | stageStart (stage : String) (text : String)
  | stageEnd (stage : String)
  | modelStart (payload : InputValue)
  | modelEnd
  | outputHandled
deriving DecidableEq, Repr

/-- Per-stage guardrail lists of a configured client. -/
structure ClientGuardrails where
  pre_flight : List NamedGuardrail := []
  input : List NamedGuardrail := []
  output : List NamedGuardrail := []

/-- Latest user message text the responses flow checks: the input itself
when plain text, otherwise the extracted latest user message
(`responses.ts` lines 142-148). -/
def responsesLatest : InputValue → String
  | .str s => s
  | .msgs ms => (extractLatestUserMessage ms).1

/-- Embedding of `Responses.create` (`src/resources/responses/responses.ts`
lines 131-200): await the pre-flight stage on the latest user message
(rethrowing its tripwire), apply preflight modifications, then start the
input stage and the model call on the modified input together and await
both, then handle the response. -/
def responsesCreate (c : ClientGuardrails) (input : InputValue)
    (suppress raiseErr : Bool) : List FlowEv × Except StageError Unit :=
  let latest := responsesLatest input
  match runStageGuardrails "pre_flight" c.pre_flight latest suppress raiseErr with
  | .error e => ([.stageStart "pre_flight" latest, .stageEnd "pre_flight"], .error e)
  | .ok preRes =>
    let modified := applyPreflightModifications input preRes
    let hdr := [FlowEv.stageStart "pre_flight" latest, .stageEnd "pre_flight",
                .stageStart "input" latest, .modelStart modified]
    match runStageGuardrails "input" c.input latest suppress raiseErr with
    | .error e => (hdr ++ [.stageEnd "input"], .error e)
    | .ok _ => (hdr ++ [.stageEnd "input", .modelEnd, .outputHandled], .ok ())

/-- Embedding of the message filter of `ChatCompletions.create`
(`src/resources/chat/chat.ts` lines 64-69): keep only user-role messages
whose content is a plain string. -/
def textOnlyMessages (ms : List Msg) : List Msg :=
  ms.filter fun m =>
    m.role == "user" &&
      (match m.content with
       | .str _ => true
       | .parts _ => false)

/-- Latest user message text the chat flow checks, extracted from the
text-only projection (`chat.ts` line 71). -/
def chatLatest (ms : List Msg) : String :=
  (extractLatestUserMessage (textOnlyMessages ms)).1

/-- Embedding of `ChatCompletions.create` (`src/resources/chat/chat.ts`
lines 54-129): project the messages to text-only user messages, await
the pre-flight stage on the latest of them, apply preflight
modifications to the text-only projection, then start the input stage
and the model call together and await both; the model call's `messages`
payload is the modified text-only projection. -/
def chatCreate (c : ClientGuardrails) (messages : List Msg)
    (suppress raiseErr : Bool) : List FlowEv × Except StageError Unit :=
  let textOnly := textOnlyMessages messages
  let latest := (extractLatestUserMessage textOnly).1
  match runStageGuardrails "pre_flight" c.pre_flight latest suppress raiseErr with
  | .error e => ([.stageStart "pre_flight" latest, .stageEnd "pre_flight"], .error e)
  | .ok preRes =>
    let modified := applyPreflightModifications (.msgs textOnly) preRes
    let hdr := [FlowEv.stageStart "pre_flight" latest, .stageEnd "pre_flight",
                .stageStart "input" latest, .modelStart modified]
    match runStageGuardrails "input" c.input latest suppress raiseErr with
    | .error e => (hdr ++ [.stageEnd "input"], .error e)
    | .ok _ => (hdr ++ [.stageEnd "input", .modelEnd, .outputHandled], .ok ())

/-- Model-call payloads of a flow trace. -/
def modelPayloads (tr : List FlowEv) : List InputValue :=
  tr.filterMap fun e =>
    match e with
    | .modelStart p => some p
    | _ => none

/-- Checked texts handed to the input stage in a flow trace. -/
def inputStageTexts (tr : List FlowEv) : List String :=
  tr.filterMap fun e =>
    match e with
    | .stageStart "input" t => some t
    | _ => none

/-! Embedding of the prompt injection detection check
(`src/checks/prompt_injection_detection.ts`).  Conversation entries are
JS records; the fields the check inspects are modelled, absent fields
are `none`.  The JSON serializer (`JSON.stringify`), the current-response
fallback parser (`tryParseCurrentResponse`, which runs `JSON.parse` on
the data string) and the LLM analysis call
(`callPromptInjectionDetectionLLM`, which catches every failure and
returns a fallback output, hence never throws) are taken as parameters
of the embedding: the claims hold for every instantiation of them.
Confidence scores are modelled as rationals. -/

/-- Content of a text-only conversation message (`TextOnlyContent`):
a string or a list of text parts. -/
inductive PIDContent where
  | str (s : String)
  | parts (ps : List String)
deriving DecidableEq, Repr

/-- Conversation entry as `prompt_injection_detection.ts` inspects it:
`role`, `type`, `content` and the presence/size of `tool_calls`. -/
structure PIDMsg where
  role : Option String := none
  ty : Option String := none
  content : PIDContent := .str ""
  tool_calls : Option Nat := none
deriving DecidableEq, Repr

/-- Configuration of the check (`PromptInjectionDetectionConfig`). -/
structure PIDConfig where
  model : String
  confidence_threshold : Rat
deriving DecidableEq, Repr

/-- Analysis output (`PromptInjectionDetectionOutput`). -/
structure PIDOutput where
  flagged : Bool
  confidence : Rat
  observation : String
deriving DecidableEq, Repr

/-- Values stored in the `info` object the check builds. -/
inductive PIDVal where
  | str (s : String)
  | bool (b : Bool)
  | num (q : Rat)
  | actions (l : List PIDMsg)
deriving DecidableEq, Repr

/-- Result of the check, with `info` as the JS object literal in key
order. -/
structure PIDResult where
  tripwireTriggered : Bool
  info : List (String × PIDVal)
deriving DecidableEq, Repr

/-- Lookup of a key in an `info` object of the check. -/
def infoLookup (key : String) : List (String × PIDVal) → Option PIDVal
  | [] => none
  | (k, v) :: rest => if k = key then some v else infoLookup key rest

/-- Context accessors the check calls; each models a method that can
throw (`.error` its message). -/
structure PIDCtx where
  history : Except String (List PIDMsg)
  lastCheckedIndex : Except String Nat
  updateResult : Except String Unit
deriving Repr

/-- User intent extracted from the conversation (`UserIntentDict`). -/
structure UserIntentDict where
  most_recent_message : String
  previous_context : List String
deriving DecidableEq, Repr

/-- Embedding of `extractContentText` (`prompt_injection_detection.ts`
lines 309-315): a string as is, array content joins the part texts with
single spaces. -/
def pidContentText : PIDContent → String
  | .str s => s
  | .parts ps => String.intercalate " " ps

/-- Embedding of `extractUserIntentFromMessages` (lines 323-341): all
user-role message texts in order; the last is the most recent message,
the rest are previous context. -/
def extractUserIntentFromMessages (messages : List PIDMsg) : UserIntentDict :=
  let userMessages :=
    (messages.filter fun m => m.role == some "user").map fun m => pidContentText m.content
  match userMessages.getLast? with
  | none => { most_recent_message := "", previous_context := [] }
  | some lastMsg =>
    { most_recent_message := lastMsg, previous_context := userMessages.dropLast }

/-- Embedding of `isFunctionCallOrOutput` (lines 282-301). -/
def isFunctionCallOrOutput (a : PIDMsg) : Bool :=
  a.ty == some "function_call" || a.ty == some "function_call_output" ||
    (a.role == some "assistant" && (a.tool_calls.getD 0) > 0) ||
    a.role == some "tool"

/-- Embedding of `parseConversationHistory` (lines 253-274): full user
intent, plus the function-call/function-output actions after the last
checked index. -/
def parseConversationHistory (conversationHistory : List PIDMsg) (lastCheckedIndex : Nat) :
    UserIntentDict × List PIDMsg :=
  let user_intent := extractUserIntentFromMessages conversationHistory
  let new_llm_actions :=
    if conversationHistory.length ≤ lastCheckedIndex then []
    else (conversationHistory.drop lastCheckedIndex).filter isFunctionCallOrOutput
  (user_intent, new_llm_actions)

/-- Embedding of `createSkipResult` (lines 353-373): the fixed skip/error
result, whose `info` always carries `checked_text` = the original data. -/
def createSkipResult (observation : String) (threshold : Rat) (data : String)
    (userGoal : String := "N/A") (action : Option (List PIDMsg) := none) : PIDResult :=
  { tripwireTriggered := false
    info :=
      [("guardrail_name", .str "Prompt Injection Detection"),
       ("observation", .str observation),
       ("flagged", .bool false),
       ("confidence", .num 0),
       ("threshold", .num threshold),
       ("user_goal", .str userGoal),
       ("action", .actions (action.getD [])),
       ("checked_text", .str data)] }

/-- Stand-in for the literal analysis prompt
`PROMPT_INJECTION_DETECTION_CHECK_PROMPT` (lines 82-114); its exact
wording plays no role in any claim. -/
def pidCheckPromptText : String :=
  "You are a security analyst reviewing function calls for alignment with user intent."

/-- Embedding of the user-goal formatting of
`promptInjectionDetectionCheck` (lines 186-195). -/
def pidUserGoalText (user_intent : UserIntentDict) : String :=
  if user_intent.previous_context ≠ [] then
    let contextText :=
      String.intercalate "\n" (user_intent.previous_context.map fun msg => "- " ++ msg)
    "Most recent request: " ++ user_intent.most_recent_message ++
      "\n\nPrevious context:\n" ++ contextText
  else user_intent.most_recent_message

/-- Embedding of `promptInjectionDetectionCheck`
(`prompt_injection_detection.ts` lines 144-244).  `tryParse` models
`tryParseCurrentResponse`, `llm` models
`callPromptInjectionDetectionLLM` (total: it swallows its own failures),
`stringify` models `JSON.stringify`.  Any thrown context-accessor error
lands in the catch-all skip result. -/
def promptInjectionDetectionCheck (ctx : PIDCtx) (data : String) (config : PIDConfig)
    (tryParse : String → List PIDMsg) (llm : String → PIDOutput)
    (stringify : List PIDMsg → String) : PIDResult :=
  let catchErr := fun (e : String) =>
    createSkipResult ("Error during prompt injection detection check: " ++ e)
      config.confidence_threshold data
  match ctx.history with
  | .error e => catchErr e
  | .ok conversationHistory =>
    if conversationHistory.isEmpty then
      createSkipResult "No conversation history available" config.confidence_threshold data
    else
      match ctx.lastCheckedIndex with
      | .error e => catchErr e
      | .ok lastCheckedIndex =>
        let parsed := parseConversationHistory conversationHistory lastCheckedIndex
        let user_intent := parsed.1
        let new_llm_actions :=
          if parsed.2.isEmpty then tryParse data else parsed.2
        if new_llm_actions.isEmpty || user_intent.most_recent_message == "" then
          createSkipResult "No function calls or function call outputs to evaluate"
            config.confidence_threshold data
            (if user_intent.most_recent_message == "" then "N/A"
             else user_intent.most_recent_message)
            (some new_llm_actions)
        else
          let userGoalText := pidUserGoalText user_intent
          if new_llm_actions.length = 1 &&
              ((new_llm_actions.headD {}).role == some "user") then
            match ctx.updateResult with
            | .error e => catchErr e
            | .ok _ =>
              createSkipResult "Skipping check: only new action is a user message"
                config.confidence_threshold data userGoalText (some new_llm_actions)
          else
            let analysisPrompt :=
              pidCheckPromptText ++ "\n\n**User's goal:** " ++ userGoalText ++
                "\n**LLM action:** " ++ stringify new_llm_actions
            let analysis := llm analysisPrompt
            match ctx.updateResult with
            | .error e => catchErr e
            | .ok _ =>
              let isMisaligned :=
                analysis.flagged && analysis.confidence ≥ config.confidence_threshold
              { tripwireTriggered := isMisaligned
                info :=
                  [("guardrail_name", .str "Prompt Injection Detection"),
                   ("observation", .str analysis.observation),
                   ("flagged", .bool analysis.flagged),
                   ("confidence", .num analysis.confidence),
                   ("threshold", .num config.confidence_threshold),
                   ("user_goal", .str userGoalText),
                   ("action", .actions new_llm_actions),
                   ("checked_text", .str (stringify conversationHistory))] }

/-! Remaining shared definitions: string concatenation over chunk lists
and concrete fixtures used by witness theorems. -/

/-- Concatenation of a list of strings, in order. -/
def sjoin : List String → String
  | [] => ""
  | s :: rest => s ++ sjoin rest

/-- Fixture: a triggering result whose checked text is `payload`. -/
def trigResult : GuardrailResult :=
  { tripwireTriggered := true, info := { checked_text := "payload" } }

/-- Fixture: guardrail `A`, always triggering. -/
def guardA : NamedGuardrail := ⟨"A", fun _ => .ok trigResult⟩

/-- Fixture: guardrail `B`, always triggering. -/
def guardB : NamedGuardrail := ⟨"B", fun _ => .ok trigResult⟩

/-- Fixture: a non-triggering PII detection result reporting an EMAIL
entity for the text it checked. -/
def piiResult (t : String) : GuardrailResult :=
  { tripwireTriggered := false
    info := { checked_text := t
              detected_entities := some [("EMAIL", ["alice@example.com"])] } }

/-- Fixture: a pre-flight PII guardrail that reports an EMAIL entity and
never trips. -/
def piiGuard : NamedGuardrail := ⟨"Contains PII", fun t => .ok (piiResult t)⟩

/-- Fixture: a client whose only guardrail is `piiGuard` at pre-flight. -/
def cMask : ClientGuardrails := { pre_flight := [piiGuard] }

/-- Fixture: an output guardrail that always trips. -/
def nsfwGuard : NamedGuardrail :=
  ⟨"NSFW", fun t => .ok { tripwireTriggered := true, info := { checked_text := t } }⟩

/-! Theorems.  Each claim of the specification review is settled by one
theorem below; shared facts about the embedding come first. -/

/-- With `raiseErr = false` no execution error propagates: collection
yields the annotated per-guardrail results in declared order. -/
theorem collectStageResults_raiseFalse (stage text : String) :
    ∀ gs : List NamedGuardrail,
      collectStageResults stage text false gs = .ok (stageResults stage gs text)
  | [] => rfl
  | g :: gs => by
    have ih := collectStageResults_raiseFalse stage text gs
    unfold collectStageResults stageResults
    cases h : g.run text <;>
      simp [h, ih, stageResults, Except.map]

/-- A found element splits its list at the first satisfying position. -/
theorem find?_split {α : Type} {p : α → Bool} :
    ∀ {l : List α} {x : α}, l.find? p = some x →
      ∃ l1 l2, l = l1 ++ x :: l2 ∧ p x = true ∧ ∀ y ∈ l1, p y = false
  | [], x => by simp
  | a :: l, x => by
    intro h
    rcases ha : p a with _ | _
    · rw [List.find?_cons_of_neg _ (by simp [ha])] at h
      obtain ⟨l1, l2, he, hx, hn⟩ := find?_split h
      exact ⟨a :: l1, l2, by simp [he], hx, by simpa [ha] using hn⟩
    · rw [List.find?_cons_of_pos _ ha] at h
      cases h
      exact ⟨[], l, rfl, ha, by simp⟩

/-- A stage none of whose collected results trips returns them all, for
any `suppressTripwire` value. -/
theorem runStage_ok_of_no_trigger (stage text : String) (gs : List NamedGuardrail)
    (suppress : Bool)
    (h : ∀ r ∈ stageResults stage gs text, r.tripwireTriggered = false) :
    runStageGuardrails stage gs text suppress false = .ok (stageResults stage gs text) := by
  unfold runStageGuardrails
  rw [collectStageResults_raiseFalse]
  have : (stageResults stage gs text).find? (·.tripwireTriggered) = none := by
    rw [List.find?_eq_none]
    intro r hr
    simp [h r hr]
  simp [this]

/-- C8: for every `GuardrailSpec` `s` and every configuration value `c`
— whether or not `c` satisfies `s.configSchema` — `s.instantiate c`
performs no validation and returns, without any failure path, a
`ConfiguredGuardrail` whose definition is `s` and whose config is
exactly `c`. -/
theorem instantiate_pure_descriptor {Ctx Inp Cfg : Type}
    (s : GuardrailSpec Ctx Inp Cfg) (c : Cfg) :
    s.instantiate c = ⟨s, c⟩ ∧
      (s.instantiate c).definition = s ∧ (s.instantiate c).config = c :=
  ⟨rfl, rfl, rfl⟩

/-- C3: `applyPreflightModifications` rewrites
`"Reach me at alice@example.com"` to `"Reach me at <EMAIL>"` under a
result carrying an EMAIL detected entity, and returns any input
unchanged whenever no result carries an `info.detected_entities` map. -/
theorem applyPreflightModifications_email_and_identity :
    (applyPreflightModifications (.str "Reach me at alice@example.com")
        [piiResult "Reach me at alice@example.com"]
      = .str "Reach me at <EMAIL>") ∧
    (∀ (input : InputValue) (results : List GuardrailResult),
        (∀ r ∈ results, r.info.detected_entities = none) →
        applyPreflightModifications input results = input) := by
  constructor
  · decide
  · intro input results h
    have hno : hasDetectedEntities results = false := by
      rw [hasDetectedEntities, List.any_eq_false]
      intro r hr
      simp [h r hr]
    simp [applyPreflightModifications, hno]

/-- Witness for C3: at the no-entities input of the unit test, the
output is the original input. -/
theorem applyPreflightModifications_email_and_identity_witness :
    applyPreflightModifications (.str "Nothing to mask") [] = .str "Nothing to mask" :=
  applyPreflightModifications_email_and_identity.2 (.str "Nothing to mask") []
    (by simp)

/-- C4 (failing input): `ChatCompletions.create` filters the declared
messages down to user-role plain-string messages and hands the model
call that filtered list after masking — so for
`[system "You are terse.", user "hi"]` the system message never reaches
the model call, contradicting the claim that every non-rewritten message
reaches it byte-for-byte unchanged. -/
theorem chat_filter_drops_messages_from_model_call :
    modelPayloads
        (chatCreate {} [⟨"system", .str "You are terse."⟩, ⟨"user", .str "hi"⟩]
          false false).1
      = [.msgs [⟨"user", .str "hi"⟩]] := by
  decide

/-- C9: every result of `promptInjectionDetectionCheck` — analysis path,
every skip path and the internal-error path alike — carries a populated
`info.checked_text` field. -/
theorem pid_checked_text_populated (ctx : PIDCtx) (data : String) (config : PIDConfig)
    (tryParse : String → List PIDMsg) (llm : String → PIDOutput)
    (stringify : List PIDMsg → String) :
    (infoLookup "checked_text"
        (promptInjectionDetectionCheck ctx data config tryParse llm stringify).info).isSome
      = true := by
  unfold promptInjectionDetectionCheck
  rcases ctx with ⟨hist, lci, upd⟩
  rcases hist with e | ch <;> rcases lci with e2 | i <;> rcases upd with e3 | u <;> dsimp only
  all_goals repeat' split
  all_goals rfl

/-- C1: a stage run that collects results (no strict-mode abort, i.e.
`raiseErr = false`) returns the annotated results in declared config
order; with `suppressTripwire = true` it returns them all without
throwing, even when some trip; with `suppressTripwire = false` and at
least one tripped result it throws a tripwire exception carrying the
result of the earliest triggering guardrail in declared order — in
particular, for guardrails `[A, B]` whose checks both trip, always the
annotated result of `A`. -/
theorem runStageGuardrails_tripwire_policy (stage text : String)
    (gs : List NamedGuardrail) :
    (runStageGuardrails stage gs text true false = .ok (stageResults stage gs text)) ∧
    ((∃ r ∈ stageResults stage gs text, r.tripwireTriggered = true) →
        ∃ l1 r l2, stageResults stage gs text = l1 ++ r :: l2 ∧
          r.tripwireTriggered = true ∧ (∀ y ∈ l1, y.tripwireTriggered = false) ∧
          runStageGuardrails stage gs text false false = .error (.tripwire r)) ∧
    ((∀ r ∈ stageResults stage gs text, r.tripwireTriggered = false) → ∀ suppress,
        runStageGuardrails stage gs text suppress false
          = .ok (stageResults stage gs text)) ∧
    (∀ A B rA rB, A.run text = .ok rA → B.run text = .ok rB →
        rA.tripwireTriggered = true → rB.tripwireTriggered = true →
        runStageGuardrails stage [A, B] text false false
          = .error (.tripwire (annotateResult stage A.name rA))) := by
  refine ⟨?_, ?_, ?_, ?_⟩
  · unfold runStageGuardrails
    rw [collectStageResults_raiseFalse]
    cases h : (stageResults stage gs text).find? (·.tripwireTriggered) <;> simp [h]
  · rintro ⟨r0, hr0, htrig⟩
    have hsome : ((stageResults stage gs text).find? (·.tripwireTriggered)).isSome := by
      rw [List.find?_isSome]
      exact ⟨r0, hr0, by simp [htrig]⟩
    obtain ⟨r, hfind⟩ := Option.isSome_iff_exists.mp hsome
    obtain ⟨l1, l2, hsplit, hp, hnone⟩ := find?_split hfind
    refine ⟨l1, r, l2, hsplit, by simpa using hp, fun y hy => by simpa using hnone y hy, ?_⟩
    unfold runStageGuardrails
    rw [collectStageResults_raiseFalse]
    dsimp only
    rw [hfind]
    simp
  · intro h suppress
    exact runStage_ok_of_no_trigger stage text gs suppress h
  · intro A B rA rB hA hB htA htB
    unfold runStageGuardrails
    rw [collectStageResults_raiseFalse]
    have : stageResults stage [A, B] text
        = [annotateResult stage A.name rA, annotateResult stage B.name rB] := by
      simp [stageResults, hA, hB]
    rw [this]
    simp [List.find?, annotateResult, htA]

/-- Witness for C1: for the concrete always-triggering guardrails `A`
and `B`, the thrown tripwire carries the annotated result of `A`. -/
theorem runStageGuardrails_tripwire_policy_witness :
    runStageGuardrails "pre_flight" [guardA, guardB] "payload" false false
      = .error (.tripwire (annotateResult "pre_flight" "A" trigResult)) :=
  (runStageGuardrails_tripwire_policy "pre_flight" "payload" []).2.2.2
    guardA guardB trigResult trigResult rfl rfl rfl rfl

/-- C2: in both the responses flow and the chat flow, the pre-flight
stage fully settles — including a raised tripwire, after which neither
an input-stage check nor the model call ever starts — before anything
else; when it settles normally, the input-stage checks and the model
call start together (adjacent events, before either is awaited), the
model call receives exactly the preflight-modified input, and both are
awaited before the flow proceeds. -/
theorem create_preflight_settles_then_input_and_model (c : ClientGuardrails)
    (input : InputValue) (messages : List Msg) (suppress raiseErr : Bool) :
    (∀ e, runStageGuardrails "pre_flight" c.pre_flight (responsesLatest input)
          suppress raiseErr = .error e →
        responsesCreate c input suppress raiseErr
          = ([.stageStart "pre_flight" (responsesLatest input), .stageEnd "pre_flight"],
             .error e)) ∧
    (∀ preRes, runStageGuardrails "pre_flight" c.pre_flight (responsesLatest input)
          suppress raiseErr = .ok preRes →
        (∀ e, runStageGuardrails "input" c.input (responsesLatest input)
              suppress raiseErr = .error e →
            responsesCreate c input suppress raiseErr
              = ([.stageStart "pre_flight" (responsesLatest input), .stageEnd "pre_flight",
                  .stageStart "input" (responsesLatest input),
                  .modelStart (applyPreflightModifications input preRes),
                  .stageEnd "input"], .error e)) ∧
        (∀ inRes, runStageGuardrails "input" c.input (responsesLatest input)
              suppress raiseErr = .ok inRes →
            responsesCreate c input suppress raiseErr
              = ([.stageStart "pre_flight" (responsesLatest input), .stageEnd "pre_flight",
                  .stageStart "input" (responsesLatest input),
                  .modelStart (applyPreflightModifications input preRes),
                  .stageEnd "input", .modelEnd, .outputHandled], .ok ()))) ∧
    (∀ e, runStageGuardrails "pre_flight" c.pre_flight (chatLatest messages)
          suppress raiseErr = .error e →
        chatCreate c messages suppress raiseErr
          = ([.stageStart "pre_flight" (chatLatest messages), .stageEnd "pre_flight"],
             .error e)) ∧
    (∀ preRes, runStageGuardrails "pre_flight" c.pre_flight (chatLatest messages)
          suppress raiseErr = .ok preRes →
        (∀ e, runStageGuardrails "input" c.input (chatLatest messages)
              suppress raiseErr = .error e →
            chatCreate c messages suppress raiseErr
              = ([.stageStart "pre_flight" (chatLatest messages), .stageEnd "pre_flight",
                  .stageStart "input" (chatLatest messages),
                  .modelStart (applyPreflightModifications (.msgs (textOnlyMessages messages))
                    preRes),
                  .stageEnd "input"], .error e)) ∧
        (∀ inRes, runStageGuardrails "input" c.input (chatLatest messages)
              suppress raiseErr = .ok inRes →
            chatCreate c messages suppress raiseErr
              = ([.stageStart "pre_flight" (chatLatest messages), .stageEnd "pre_flight",
                  .stageStart "input" (chatLatest messages),
                  .modelStart (applyPreflightModifications (.msgs (textOnlyMessages messages))
                    preRes),
                  .stageEnd "input", .modelEnd, .outputHandled], .ok ()))) := by
  refine ⟨?_, ?_, ?_, ?_⟩
  · intro e h
    unfold responsesCreate
    dsimp only
    rw [h]
  · intro preRes hpre
    unfold responsesCreate
    dsimp only
    rw [hpre]
    refine ⟨?_, ?_⟩
    · intro e h
      dsimp only
      rw [h]
      rfl
    · intro inRes h
      dsimp only
      rw [h]
      rfl
  · intro e h
    unfold chatCreate
    dsimp only
    rw [show (extractLatestUserMessage (textOnlyMessages messages)).1 = chatLatest messages
      from rfl, h]
  · intro preRes hpre
    unfold chatCreate
    dsimp only
    rw [show (extractLatestUserMessage (textOnlyMessages messages)).1 = chatLatest messages
      from rfl, hpre]
    refine ⟨?_, ?_⟩
    · intro e h
      dsimp only
      rw [h]
      rfl
    · intro inRes h
      dsimp only
      rw [h]
      rfl

/-- Witness for C2: for an empty client on plain-text input `"hi"`, the
flow trace is exactly preflight, then input start and model start
together, then both ends, then output handling. -/
theorem create_preflight_settles_then_input_and_model_witness :
    responsesCreate {} (.str "hi") false false
      = ([.stageStart "pre_flight" "hi", .stageEnd "pre_flight",
          .stageStart "input" "hi", .modelStart (.str "hi"),
          .stageEnd "input", .modelEnd, .outputHandled], .ok ()) :=
  ((create_preflight_settles_then_input_and_model {} (.str "hi") [] false false).2.1
    [] rfl).2 [] rfl

/-- C10: whenever the pre-flight stage settles normally, the input-stage
checks of both flows run against the latest user message text taken from
the original input (for chat: from its text-only projection) — never
against the preflight-modified text, whatever entities the preflight
results report. -/
theorem input_stage_checks_original_text (c : ClientGuardrails)
    (input : InputValue) (messages : List Msg) (suppress raiseErr : Bool) :
    (∀ preRes, runStageGuardrails "pre_flight" c.pre_flight (responsesLatest input)
          suppress raiseErr = .ok preRes →
        inputStageTexts (responsesCreate c input suppress raiseErr).1
          = [responsesLatest input]) ∧
    (∀ preRes, runStageGuardrails "pre_flight" c.pre_flight (chatLatest messages)
          suppress raiseErr = .ok preRes →
        inputStageTexts (chatCreate c messages suppress raiseErr).1
          = [chatLatest messages]) := by
  constructor
  · intro preRes hpre
    unfold responsesCreate
    dsimp only
    rw [hpre]
    cases h : runStageGuardrails "input" c.input (responsesLatest input) suppress raiseErr <;>
      rfl
  · intro preRes hpre
    unfold chatCreate
    dsimp only
    rw [show (extractLatestUserMessage (textOnlyMessages messages)).1 = chatLatest messages
      from rfl, hpre]
    cases h : runStageGuardrails "input" c.input (chatLatest messages) suppress raiseErr <;>
      rfl

/-- Witness for C10: under a pre-flight PII guardrail that reports an
EMAIL entity (so the model payload is masked), the input stage still
checks the original, unmasked text. -/
theorem input_stage_checks_original_text_witness :
    inputStageTexts
        (responsesCreate cMask (.str "Reach me at alice@example.com") false false).1
      = ["Reach me at alice@example.com"] :=
  (input_stage_checks_original_text cMask (.str "Reach me at alice@example.com")
      [] false false).1
    [annotateResult "pre_flight" "Contains PII" (piiResult "Reach me at alice@example.com")]
    rfl


/-- Concatenation distributes over a cons of chunk texts. -/
theorem sjoin_cons (c : String) (cs : List String) : sjoin (c :: cs) = c ++ sjoin cs := rfl

/-- A string of length zero is the empty string. -/
theorem string_eq_empty_of_length (s : String) (h : s.length = 0) : s = "" := by
  cases s with
  | mk data =>
    simp [String.length] at h
    simp [h]

/-- Appending to a non-empty string stays non-empty. -/
theorem append_ne_empty_left (c x : String) (h : c ≠ "") : c ++ x ≠ "" := by
  intro he
  apply h
  have hl := congrArg String.length he
  rw [String.length_append] at hl
  have hz : ("" : String).length = 0 := rfl
  rw [hz] at hl
  exact string_eq_empty_of_length c (by omega)

/-- Filtering a conditional `filterMap` splits into `filter` and `map`. -/
theorem filterMapIfP {α β : Type} (p : α → Prop) [DecidablePred p] (g : α → β) (l : List α) :
    (l.filterMap fun a => if p a then some (g a) else none)
      = (l.filter (fun a => decide (p a))).map g := by
  induction l with
  | nil => rfl
  | cons a l ih =>
    by_cases h : p a <;> simp [List.filterMap_cons, List.filter_cons, h, ih]

/-- Chunk-loop characterization when every chunk carries non-empty text
and no output-stage result trips: the loop never rethrows, accumulates
all text, counts every chunk, and invokes the output stage exactly on
the accumulated prefixes at counter multiples of the interval. -/
theorem streamLoop_no_trigger (gs : List NamedGuardrail)
    (pre inp : List GuardrailResult) (suppress : Bool) (interval : Nat)
    (hnt : ∀ text r, r ∈ stageResults "output" gs text → r.tripwireTriggered = false) :
    ∀ (chunks : List String), (∀ c ∈ chunks, c ≠ "") → ∀ (acc : String) (count : Nat),
      (streamLoop gs pre inp suppress interval chunks acc count).2
          = (acc ++ sjoin chunks, count + chunks.length, none) ∧
      (streamLoop gs pre inp suppress interval chunks acc count).1.filterMap checkText?
          = (List.range chunks.length).filterMap
              (fun i => if (count + i + 1) % interval = 0
                then some (acc ++ sjoin (List.take (i + 1) chunks)) else none) := by
  intro chunks
  induction chunks with
  | nil =>
    intro _ acc count
    simp [streamLoop, sjoin, String.append_empty]
  | cons c cs ih =>
    intro hne acc count
    have hc : ¬ c = "" := hne c (List.mem_cons_self c cs)
    have hcs : ∀ x ∈ cs, x ≠ "" := fun x hx => hne x (List.mem_cons_of_mem c hx)
    have hok := runStage_ok_of_no_trigger "output" (acc ++ c) gs suppress (hnt (acc ++ c))
    have ihspec := ih hcs (acc ++ c) (count + 1)
    rcases hrec : streamLoop gs pre inp suppress interval cs (acc ++ c) (count + 1)
      with ⟨evs', rest'⟩
    rw [hrec] at ihspec
    obtain ⟨hstate, hchecks⟩ := ihspec
    dsimp only at hstate hchecks
    subst hstate
    have hrhs : (List.range (c :: cs).length).filterMap
          (fun i => if (count + i + 1) % interval = 0
            then some (acc ++ sjoin (List.take (i + 1) (c :: cs))) else none)
        = (if (count + 1) % interval = 0 then [acc ++ c] else [])
            ++ (List.range cs.length).filterMap
              (fun i => if (count + 1 + i + 1) % interval = 0
                then some ((acc ++ c) ++ sjoin (List.take (i + 1) cs)) else none) := by
      rw [List.length_cons, List.range_succ_eq_map, List.filterMap_cons]
      have hfun : ((fun i => if (count + i + 1) % interval = 0
            then some (acc ++ sjoin (List.take (i + 1) (c :: cs))) else none) ∘ (· + 1))
          = (fun i => if (count + 1 + i + 1) % interval = 0
            then some ((acc ++ c) ++ sjoin (List.take (i + 1) cs)) else none) := by
        funext i
        have h2 : count + (i + 1) + 1 = count + 1 + i + 1 := by omega
        simp only [Function.comp_apply, h2, List.take_succ_cons, sjoin_cons,
          String.append_assoc]
      rw [List.filterMap_map, hfun]
      by_cases h1 : (count + 1) % interval = 0
      · simp [h1, sjoin_cons, sjoin, String.append_empty]
      · simp [h1]
    by_cases h1 : (count + 1) % interval = 0
    · refine ⟨?_, ?_⟩
      · simp only [streamLoop, hc, if_false, h1, if_true, hok, hrec]
        simp [Prod.mk.injEq, sjoin_cons, List.length_cons, String.append_assoc]
        all_goals omega
      · simp only [streamLoop, hc, if_false, h1, if_true, hok, hrec]
        rw [hrhs, if_pos h1]
        simp only [List.filterMap_cons, checkText?]
        rw [hchecks]
        rfl
    · refine ⟨?_, ?_⟩
      · simp only [streamLoop, hc, if_false, h1, if_true, hok, hrec]
        simp [Prod.mk.injEq, sjoin_cons, List.length_cons, String.append_assoc]
        all_goals omega
      · simp only [streamLoop, hc, if_false, h1, if_true, hok, hrec]
        rw [hrhs, if_neg h1]
        simp only [List.filterMap_cons, checkText?]
        rw [hchecks]
        rfl

/-- C5: for every 250-chunk stream of non-empty texts under
`checkInterval = 100`, with no output guardrail triggering and tripwires
not suppressed, `streamWithGuardrails` runs the output stage exactly
three times — over the text accumulated through chunk 100, through
chunk 200, and over the complete text at stream end — and ends without
raising. -/
theorem streaming_checks_at_100_200_and_end (gs : List NamedGuardrail)
    (pre inp : List GuardrailResult) (chunks : List String)
    (hlen : chunks.length = 250) (hne : ∀ c ∈ chunks, c ≠ "")
    (hnt : ∀ text r, r ∈ stageResults "output" gs text → r.tripwireTriggered = false) :
    (streamWithGuardrails gs pre inp false 100 chunks).1.filterMap checkText?
      = [sjoin (chunks.take 100), sjoin (chunks.take 200), sjoin chunks] ∧
    (streamWithGuardrails gs pre inp false 100 chunks).2 = none := by
  obtain ⟨hstate, hchecks⟩ := streamLoop_no_trigger gs pre inp false 100 hnt chunks hne "" 0
  rcases hloop : streamLoop gs pre inp false 100 chunks "" 0 with ⟨evs, rest⟩
  rw [hloop] at hstate hchecks
  dsimp only at hstate hchecks
  subst hstate
  have hacc : ("" ++ sjoin chunks : String) = sjoin chunks := String.empty_append _
  have hne0 : sjoin chunks ≠ "" := by
    cases chunks with
    | nil => simp at hlen
    | cons c cs =>
      rw [sjoin_cons]
      exact append_ne_empty_left c (sjoin cs) (hne c (by simp))
  have hloopchecks : (List.range chunks.length).filterMap
        (fun i => if (0 + i + 1) % 100 = 0
          then some ("" ++ sjoin (List.take (i + 1) chunks)) else none)
      = [sjoin (chunks.take 100), sjoin (chunks.take 200)] := by
    rw [hlen, filterMapIfP]
    have hfilter : ((List.range 250).filter (fun i => decide ((0 + i + 1) % 100 = 0)))
        = [99, 199] := by decide
    rw [hfilter]
    simp [String.empty_append]
  unfold streamWithGuardrails
  rw [hloop]
  dsimp only
  unfold streamFinal
  rw [if_pos ⟨rfl, by rw [hacc]; exact hne0⟩]
  rw [runStage_ok_of_no_trigger "output" ("" ++ sjoin chunks) gs false (hnt _)]
  dsimp only
  refine ⟨?_, rfl⟩
  rw [List.filterMap_append, hchecks, hloopchecks]
  simp [checkText?, String.empty_append]

/-- Witness for C5: 250 chunks of text `a` with no output guardrails
yield exactly the three checks. -/
theorem streaming_checks_at_100_200_and_end_witness :
    (streamWithGuardrails [] [] [] false 100 (List.replicate 250 "a")).1.filterMap checkText?
      = [sjoin ((List.replicate 250 "a").take 100), sjoin ((List.replicate 250 "a").take 200),
         sjoin (List.replicate 250 "a")] ∧
    (streamWithGuardrails [] [] [] false 100 (List.replicate 250 "a")).2 = none :=
  streaming_checks_at_100_200_and_end [] [] [] (List.replicate 250 "a")
    (by rw [List.length_replicate])
    (fun c hc => by rw [List.eq_of_mem_replicate hc]; decide)
    (by simp [stageResults])

/-- C6: when the chunk loop finishes without rethrowing, the final
output-stage check runs exactly when tripwires are not suppressed and
text was accumulated — otherwise the stream ends with no further events
— and when it runs it contributes one output-stage invocation plus one
terminal wrapped value, rethrowing the tripwire exactly when the check
trips (the terminal value then carries the triggering result). -/
theorem streaming_final_check_iff (gs : List NamedGuardrail)
    (pre inp : List GuardrailResult) (suppress : Bool) (interval : Nat)
    (chunks : List String) (levs : List StreamEv) (acc : String) (cnt : Nat)
    (hloop : streamLoop gs pre inp suppress interval chunks "" 0 = (levs, acc, cnt, none)) :
    (¬ (suppress = false ∧ acc ≠ "") →
        streamWithGuardrails gs pre inp suppress interval chunks = (levs, none)) ∧
    (∀ rs, suppress = false → acc ≠ "" →
        runStageGuardrails "output" gs acc suppress false = .ok rs →
        streamWithGuardrails gs pre inp suppress interval chunks
          = (levs ++ [.checkRun acc, .yieldFinal acc pre inp rs], none)) ∧
    (∀ r, suppress = false → acc ≠ "" →
        runStageGuardrails "output" gs acc suppress false = .error (.tripwire r) →
        streamWithGuardrails gs pre inp suppress interval chunks
          = (levs ++ [.checkRun acc, .yieldFinal acc pre inp [r]],
             some (.tripwire r))) := by
  refine ⟨?_, ?_, ?_⟩
  · intro h
    unfold streamWithGuardrails
    rw [hloop]
    dsimp only
    unfold streamFinal
    rw [if_neg h]
    simp
  · intro rs hs hacc hrun
    unfold streamWithGuardrails
    rw [hloop]
    dsimp only
    unfold streamFinal
    rw [if_pos ⟨hs, hacc⟩, hrun]
  · intro r hs hacc hrun
    unfold streamWithGuardrails
    rw [hloop]
    dsimp only
    unfold streamFinal
    rw [if_pos ⟨hs, hacc⟩, hrun]

/-- Witness for C6: a one-chunk stream under an always-tripping output
guardrail yields the chunk, runs the final check, emits the terminal
wrapped value carrying the triggering result, and rethrows it. -/
theorem streaming_final_check_iff_witness :
    streamWithGuardrails [nsfwGuard] [] [] false 100 ["bad"]
      = ([.yieldChunk "bad" [] [] [], .checkRun "bad",
          .yieldFinal "bad" [] []
            [annotateResult "output" "NSFW"
              { tripwireTriggered := true, info := { checked_text := "bad" } }]],
         some (.tripwire (annotateResult "output" "NSFW"
            { tripwireTriggered := true, info := { checked_text := "bad" } }))) :=
  (streaming_final_check_iff [nsfwGuard] [] [] false 100 ["bad"]
      [.yieldChunk "bad" [] [] []] "bad" 1 rfl).2.2
    (annotateResult "output" "NSFW"
      { tripwireTriggered := true, info := { checked_text := "bad" } })
    rfl (by decide) rfl

/-- Chunk-loop characterization for every run that completes without
rethrowing: each consumed chunk is forwarded exactly once, in order,
wrapped with the fixed preflight/input results and an empty output list;
the buffer accumulates exactly the concatenated chunk texts; the counter
counts exactly the chunks with non-empty text. -/
theorem streamLoop_complete (gs : List NamedGuardrail)
    (pre inp : List GuardrailResult) (suppress : Bool) (interval : Nat) :
    ∀ (chunks : List String) (acc : String) (count : Nat) (evs : List StreamEv)
      (a : String) (n : Nat),
      streamLoop gs pre inp suppress interval chunks acc count = (evs, a, n, none) →
      evs.filterMap yieldOf?
          = chunks.map (fun c => (c, pre, inp, ([] : List GuardrailResult))) ∧
      a = acc ++ sjoin chunks ∧ n = count + chunks.countP (fun c => !(c == "")) := by
  intro chunks
  induction chunks with
  | nil =>
    intro acc count evs a n h
    have heq : streamLoop gs pre inp suppress interval [] acc count
        = ([], acc, count, none) := rfl
    rw [h] at heq
    obtain ⟨rfl, rfl, rfl, -⟩ := by simpa [Prod.mk.injEq] using heq
    simp [sjoin, String.append_empty]
  | cons c cs ih =>
    intro acc count evs a n h
    by_cases hc : c = ""
    · rcases hrec : streamLoop gs pre inp suppress interval cs acc count
        with ⟨evs', a', n', th'⟩
      have heq : streamLoop gs pre inp suppress interval (c :: cs) acc count
          = (.yieldChunk c pre inp [] :: evs', a', n', th') := by
        simp only [streamLoop, hc, eq_self_iff_true, if_true, hrec]
      rw [h] at heq
      obtain ⟨rfl, rfl, rfl, hth⟩ := by simpa [Prod.mk.injEq] using heq
      obtain ⟨hy, ha', hn'⟩ := ih acc count evs' a n (by rw [hrec, ← hth])
      refine ⟨?_, ?_, ?_⟩
      · simp [List.filterMap_cons, yieldOf?, hy]
      · rw [ha', hc, sjoin_cons, String.empty_append]
      · simp [hn', List.countP_cons, hc]
    · by_cases h1 : (count + 1) % interval = 0
      · rcases hrun : runStageGuardrails "output" gs (acc ++ c) suppress false
          with e | rs
        · rcases e with r | m
          · have heq : streamLoop gs pre inp suppress interval (c :: cs) acc count
                = ([.checkRun (acc ++ c), .yieldChunk c pre inp [r]],
                   acc ++ c, count + 1, some (.tripwire r)) := by
              simp only [streamLoop, hc, if_false, h1, if_true, hrun]
            rw [h] at heq
            simp [Prod.mk.injEq] at heq
          · have heq : streamLoop gs pre inp suppress interval (c :: cs) acc count
                = ([.checkRun (acc ++ c)], acc ++ c, count + 1,
                   some (.execution m)) := by
              simp only [streamLoop, hc, if_false, h1, if_true, hrun]
            rw [h] at heq
            simp [Prod.mk.injEq] at heq
        · rcases hrec : streamLoop gs pre inp suppress interval cs (acc ++ c) (count + 1)
            with ⟨evs', a', n', th'⟩
          have heq : streamLoop gs pre inp suppress interval (c :: cs) acc count
              = (.checkRun (acc ++ c) :: .yieldChunk c pre inp [] :: evs',
                 a', n', th') := by
            simp only [streamLoop, hc, if_false, h1, if_true, hrun, hrec]
          rw [h] at heq
          obtain ⟨rfl, rfl, rfl, hth⟩ := by simpa [Prod.mk.injEq] using heq
          obtain ⟨hy, ha', hn'⟩ := ih (acc ++ c) (count + 1) evs' a n
            (by rw [hrec, ← hth])
          refine ⟨?_, ?_, ?_⟩
          · simp [List.filterMap_cons, yieldOf?, checkText?, hy]
          · rw [ha', sjoin_cons, String.append_assoc]
          · simp [hn', List.countP_cons, hc]
            omega
      · rcases hrec : streamLoop gs pre inp suppress interval cs (acc ++ c) (count + 1)
          with ⟨evs', a', n', th'⟩
        have heq : streamLoop gs pre inp suppress interval (c :: cs) acc count
            = (.yieldChunk c pre inp [] :: evs', a', n', th') := by
          simp only [streamLoop, hc, if_false, h1, if_true, hrec]
        rw [h] at heq
        obtain ⟨rfl, rfl, rfl, hth⟩ := by simpa [Prod.mk.injEq] using heq
        obtain ⟨hy, ha', hn'⟩ := ih (acc ++ c) (count + 1) evs' a n
          (by rw [hrec, ← hth])
        refine ⟨?_, ?_, ?_⟩
        · simp [List.filterMap_cons, yieldOf?, hy]
        · rw [ha', sjoin_cons, String.append_assoc]
        · simp [hn', List.countP_cons, hc]
          omega

/-- C7 (counterexample): a single chunk whose extracted text is empty is
forwarded but does not increment the chunk counter, so the counter does
not equal the number of inbound chunks as the claim states. -/
theorem streaming_counter_counterexample :
    (streamLoop [] [] [] false 100 [""] "" 0).2.2.1 ≠ ([""] : List String).length := by
  decide

/-- C7 (amended): for every stream whose loop completes without an
output check tripping, every inbound chunk is forwarded exactly once, in
order and without delay, wrapped with the stream's preflight and input
results and an empty output-results list; the buffer accumulates exactly
the concatenation of the extracted texts; and the chunk counter is
incremented exactly for the chunks whose extracted text is non-empty. -/
theorem streaming_forwards_every_chunk (gs : List NamedGuardrail)
    (pre inp : List GuardrailResult) (suppress : Bool) (interval : Nat)
    (chunks : List String) (evs : List StreamEv) (a : String) (n : Nat)
    (hloop : streamLoop gs pre inp suppress interval chunks "" 0 = (evs, a, n, none)) :
    evs.filterMap yieldOf?
        = chunks.map (fun c => (c, pre, inp, ([] : List GuardrailResult))) ∧
    a = sjoin chunks ∧ n = chunks.countP (fun c => !(c == "")) := by
  obtain ⟨hy, ha, hn⟩ := streamLoop_complete gs pre inp suppress interval chunks "" 0
    evs a n hloop
  exact ⟨hy, by rw [ha, String.empty_append], by rw [hn]; omega⟩

/-- Witness for C7 (amended): the three-chunk stream `a`, empty, `b`
forwards all three wrapped chunks, accumulates `ab`, and counts two
chunks. -/
theorem streaming_forwards_every_chunk_witness :
    ([StreamEv.yieldChunk "a" [] [] [], .yieldChunk "" [] [] [],
        .yieldChunk "b" [] [] []] : List StreamEv).filterMap yieldOf?
      = (["a", "", "b"] : List String).map
          (fun c => (c, [], [], ([] : List GuardrailResult))) ∧
    ("ab" : String) = sjoin ["a", "", "b"] ∧
    (2 : Nat) = (["a", "", "b"] : List String).countP (fun c => !(c == "")) :=
  streaming_forwards_every_chunk [] [] [] false 100 ["a", "", "b"]
    [.yieldChunk "a" [] [] [], .yieldChunk "" [] [] [], .yieldChunk "b" [] [] []]
    "ab" 2 rfl

end Guardrails
